import Mathlib

/-!
The Android network-state bridge of grey-link, package `pkg/transport`.

A shallow embedding of `pkg/transport/transport.go`:

* `UpdateNetworkState` (the ingestion path, with its deferred `recover`),
* `getAndroidInterfaces` (the interface list handed to `netmon`),
* `getAndroidDefaultInterface` (the default route handed to `netutil`).

The package-level variable `lastState` is passed explicitly.  The locks
(`stateMu`) and the log lines have no effect on the values computed and are
left out.

Calls into other packages are handled as follows.

* `net.ParseCIDR` is applied to strings that arrive at run time.  The two
  queries take the parser as an argument `parseCIDR`, and every general
  theorem holds for every parser.  A model of the Go function, `net.ParseCIDR`,
  is given below and is used to evaluate the queries on concrete snapshots.
* `json.Unmarshal` and `netmon.UpdateLastKnownDefaultRouteInterface` are
  arguments of `UpdateNetworkState`.
* `net.ParseIP`, `net.CIDRMask`, `IP.To4`, `netip.AddrFrom4` and
  `netip.AddrFromSlice` are modelled directly.

Byte slices and byte arrays are lists of natural numbers below 256.  Go strings
are read as sequences of characters: the parsers below accept ASCII only, so a
character outside ASCII is rejected exactly where its UTF-8 bytes would be.
-/

set_option autoImplicit false
set_option linter.dupNamespace false

namespace Transport

/-! ## Model of the Go standard library: package `net/netip` -/

namespace netip

/-- The family tag `z` of a `netip.Addr`: `z0` for the zero `Addr`, `z4` for
IPv4, `z6` for IPv6 together with its zone (`z6noz` is `z6 ""`). -/
inductive Z where
  | z0
  | z4
  | z6 (zone : String)
  deriving DecidableEq, Repr

/-- A `netip.Addr`.  Go stores the address as a 128-bit integer, an IPv4
address in its IPv4-mapped IPv6 form; here `addr` holds the sixteen bytes of
that integer, most significant first (`[]` for the zero `Addr`). -/
structure Addr where
  addr : List Nat
  z : Z
  deriving DecidableEq, Repr

/-- The zero value `netip.Addr{}`. -/
def Addr.zero : Addr := ⟨[], Z.z0⟩

/-- The twelve bytes that start an IPv4-mapped IPv6 address. -/
def v4InV6Lead : List Nat := [0, 0, 0, 0, 0, 0, 0, 0, 0, 0, 0xff, 0xff]

/-- Go: `netip.AddrFrom4`. -/
def AddrFrom4 (b : List Nat) : Addr := ⟨v4InV6Lead ++ b, Z.z4⟩

/-- Go: `netip.AddrFrom16`. -/
def AddrFrom16 (b : List Nat) : Addr := ⟨b, Z.z6 ""⟩

/-- Go: `netip.AddrFromSlice`: a 4-byte slice gives an IPv4 address, a 16-byte
slice an IPv6 address, any other length gives `Addr{}, false`. -/
def AddrFromSlice (slice : List Nat) : Addr × Bool :=
  if slice.length = 4 then (AddrFrom4 slice, true)
  else if slice.length = 16 then (AddrFrom16 slice, true)
  else (Addr.zero, false)

/-- Go: `Addr.Is6`. -/
def Addr.Is6 (ip : Addr) : Bool :=
  match ip.z with
  | Z.z6 _ => true
  | _ => false

/-- Go: `Addr.Is4In6`: an IPv6 address whose first twelve bytes are the IPv4-mapped
lead. -/
def Addr.Is4In6 (ip : Addr) : Bool :=
  ip.Is6 && decide (ip.addr.take 12 = v4InV6Lead)

/-- Go: `Addr.Unmap`: an IPv4-mapped IPv6 address becomes the IPv4 address, any
other address is returned as it is. -/
def Addr.Unmap (ip : Addr) : Addr :=
  if ip.Is4In6 then { ip with z := Z.z4 } else ip

/-- Go: `Addr.WithZone`: only an IPv6 address takes a zone. -/
def Addr.WithZone (ip : Addr) (zone : String) : Addr :=
  if ip.Is6 then { ip with z := Z.z6 zone } else ip

/-- Go: `Addr.Zone`. -/
def Addr.Zone (ip : Addr) : String :=
  match ip.z with
  | Z.z6 zone => zone
  | _ => ""

/-- Go: `Addr.BitLen`. -/
def Addr.BitLen (ip : Addr) : Nat :=
  match ip.z with
  | Z.z0 => 0
  | Z.z4 => 32
  | Z.z6 _ => 128

/-- Go: `Addr.As16`. -/
def Addr.As16 (ip : Addr) : List Nat := ip.addr

/-- Go: `Addr.AsSlice`: the 4 bytes of an IPv4 address, the 16 bytes of an IPv6
address, `nil` for the zero `Addr`. -/
def Addr.AsSlice (ip : Addr) : List Nat :=
  match ip.z with
  | Z.z0 => []
  | Z.z4 => ip.addr.drop 12
  | Z.z6 _ => ip.addr

/-- The value of a decimal digit. -/
def decDigit (c : Char) : Option Nat :=
  if 48 ≤ c.toNat ∧ c.toNat ≤ 57 then some (c.toNat - 48) else none

/-- The value of a hexadecimal digit, in either case. -/
def hexDigit (c : Char) : Option Nat :=
  if 48 ≤ c.toNat ∧ c.toNat ≤ 57 then some (c.toNat - 48)
  else if 97 ≤ c.toNat ∧ c.toNat ≤ 102 then some (c.toNat - 97 + 10)
  else if 65 ≤ c.toNat ∧ c.toNat ≤ 70 then some (c.toNat - 65 + 10)
  else none

/-- The loop of `parseIPv4Fields` over the remaining characters.  `first` says
that the character at hand is the first one, `prevDot` that the one before it
was a dot; `fields` holds the `pos` octets completed so far. -/
def parseIPv4FieldsLoop :
    List Char → Bool → Bool → Nat → Nat → List Nat → Option (Nat × List Nat)
  | [], _, _, val, _, fields => some (val, fields)
  | c :: rest, first, prevDot, val, digLen, fields =>
    match decDigit c with
    | some d =>
      if digLen = 1 ∧ val = 0 then none
      else if val * 10 + d > 255 then none
      else parseIPv4FieldsLoop rest false false (val * 10 + d) (digLen + 1) fields
    | none =>
      if c = '.' then
        if first ∨ rest = [] ∨ prevDot then none
        else if fields.length = 3 then none
        else parseIPv4FieldsLoop rest false true 0 0 (fields ++ [val])
      else none

/-- Go: `parseIPv4Fields`: four decimal octets separated by dots, none above 255
and none with a leading zero. -/
def parseIPv4Fields (s : List Char) : Option (List Nat) :=
  match parseIPv4FieldsLoop s true false 0 0 [] with
  | none => none
  | some (val, fields) => if fields.length < 3 then none else some (fields ++ [val])

/-- Go: `parseIPv4`. -/
def parseIPv4 (s : List Char) : Option Addr :=
  (parseIPv4Fields s).map AddrFrom4

/-- The hexadecimal group at the head of `s`, as read by the inner loop of
`parseIPv6`: `none` on a fifth digit, otherwise the number of digits, their
value and the characters left. -/
def hexGroup : List Char → Nat → Nat → Option (Nat × Nat × List Char)
  | [], off, acc => some (off, acc, [])
  | c :: rest, off, acc =>
    match hexDigit c with
    | none => some (off, acc, c :: rest)
    | some d =>
      if off > 3 then none
      else if acc * 16 + d > 0xffff then none
      else hexGroup rest (off + 1) (acc * 16 + d)

/-- The main loop of `parseIPv6`.  `fuel` counts the iterations left (the loop
runs while `i < 16` and `i` grows by two each time, so `i = 16 - 2 * fuel`),
`ip` holds the `i` bytes written so far, `ellipsis` the position of `::`.
The result is the text left over, the bytes written and the ellipsis. -/
def parseIPv6Loop :
    Nat → List Char → List Nat → Option Nat → Option (List Char × List Nat × Option Nat)
  | 0, s, ip, ellipsis => some (s, ip, ellipsis)
  | fuel + 1, s, ip, ellipsis =>
    match hexGroup s 0 0 with
    | none => none
    | some (off, acc, rest) =>
      if off = 0 then none
      else if rest.head? = some '.' then
        if ellipsis = none ∧ ip.length ≠ 12 then none
        else if ip.length + 4 > 16 then none
        else
          match parseIPv4Fields s with
          | none => none
          | some fields => some ([], ip ++ fields, ellipsis)
      else
        let ip := ip ++ [acc / 256, acc % 256]
        match rest with
        | [] => some ([], ip, ellipsis)
        | c :: rest1 =>
          if c ≠ ':' then none
          else
            match rest1 with
            | [] => none
            | c1 :: rest2 =>
              if c1 = ':' then
                if ellipsis ≠ none then none
                else if rest2 = [] then some ([], ip, some ip.length)
                else parseIPv6Loop fuel rest2 ip (some ip.length)
              else parseIPv6Loop fuel rest1 ip ellipsis

/-- Go: `parseIPv6`: splits off the zone, reads the groups and expands `::`. -/
def parseIPv6 (input : List Char) : Option Addr :=
  let s := input.takeWhile (fun c => c ≠ '%')
  let zoneGiven := decide (s.length < input.length)
  let zone := input.drop (s.length + 1)
  if zoneGiven ∧ zone = [] then none
  else
    let lead := decide (s.take 2 = [':', ':'])
    let s := if lead then s.drop 2 else s
    if lead ∧ s = [] then some ((AddrFrom16 (List.replicate 16 0)).WithZone (String.mk zone))
    else
      match parseIPv6Loop 8 s [] (if lead then some 0 else none) with
      | none => none
      | some (rest, ip, ellipsis) =>
        if rest ≠ [] then none
        else if ip.length < 16 then
          match ellipsis with
          | none => none
          | some e =>
            some ((AddrFrom16 (ip.take e ++ List.replicate (16 - ip.length) 0 ++ ip.drop e)).WithZone
              (String.mk zone))
        else if ellipsis ≠ none then none
        else some ((AddrFrom16 ip).WithZone (String.mk zone))

/-- The scan of `ParseAddr` for the first `.`, `:` or `%`. -/
def ParseAddrScan (s : List Char) : List Char → Option Addr
  | [] => none
  | c :: rest =>
    if c = '.' then parseIPv4 s
    else if c = ':' then parseIPv6 s
    else if c = '%' then none
    else ParseAddrScan s rest

/-- Go: `netip.ParseAddr`. -/
def ParseAddr (s : String) : Option Addr := ParseAddrScan s.data s.data

end netip

/-! ## Model of the Go standard library: package `net` -/

namespace net

/-- Go: `net.IP`, a byte slice. -/
abbrev IP := List Nat

/-- Go: `net.IPMask`, a byte slice. -/
abbrev IPMask := List Nat

/-- Go: `net.IPNet`. -/
structure IPNet where
  IP : IP
  Mask : IPMask
  deriving DecidableEq, Repr

/-- Go: `net.Flags` is a bit set. -/
abbrev Flags := Nat

def FlagUp : Flags := 1
def FlagBroadcast : Flags := 2
def FlagLoopback : Flags := 4
def FlagPointToPoint : Flags := 8
def FlagMulticast : Flags := 16
def FlagRunning : Flags := 32

/-- Go: `net.Interface`.  `HardwareAddr` is never set by this package. -/
structure Interface where
  Index : Int
  MTU : Int
  Name : String
  HardwareAddr : List Nat
  Flags : Flags
  deriving DecidableEq, Repr

/-- Go: `IP.To4`: a 4-byte address is returned as it is, a 16-byte IPv4-mapped
address gives its last four bytes, anything else gives `nil` (`none`). -/
def IP.To4 (ip : IP) : Option IP :=
  if ip.length = 4 then some ip
  else if ip.length = 16 ∧ ip.take 12 = netip.v4InV6Lead then some (ip.drop 12)
  else none

/-- The bytes of `CIDRMask`: `l` bytes, of which the first `n` bits are set. -/
def cidrMaskBytes : Nat → Nat → List Nat
  | 0, _ => []
  | l + 1, n =>
    if n ≥ 8 then 0xff :: cidrMaskBytes l (n - 8)
    else (0xff - 0xff >>> n) :: cidrMaskBytes l 0

/-- Go: `net.CIDRMask`: `nil` unless `bits` is 32 or 128 and `ones ≤ bits`. -/
def CIDRMask (ones bits : Nat) : IPMask :=
  if bits ≠ 32 ∧ bits ≠ 128 then []
  else if ones > bits then []
  else cidrMaskBytes (bits / 8) ones

/-- Go: `IP.Mask`. -/
def IP.Mask (ip : IP) (mask : IPMask) : IP :=
  let mask :=
    if mask.length = 16 ∧ ip.length = 4 ∧ mask.take 12 = List.replicate 12 0xff then mask.drop 12
    else mask
  let ip :=
    if mask.length = 4 ∧ ip.length = 16 ∧ ip.take 12 = netip.v4InV6Lead then ip.drop 12 else ip
  if ip.length ≠ mask.length then [] else List.zipWith (fun a b => a &&& b) ip mask

/-- Go: `net.ParseIP`: the 16-byte form of the address, `nil` (`none`) when the
text is no address or carries a zone. -/
def ParseIP (s : String) : Option IP :=
  match netip.ParseAddr s with
  | none => none
  | some ip => if ip.Zone ≠ "" then none else some ip.As16

/-- The loop of `dtoi`: the decimal number at the head of the text and the
number of digits read, `none` once the value reaches `0xFFFFFF`. -/
def dtoiLoop : List Char → Nat → Nat → Option (Nat × Nat)
  | [], n, i => some (n, i)
  | c :: rest, n, i =>
    match netip.decDigit c with
    | none => some (n, i)
    | some d => if n * 10 + d ≥ 0xFFFFFF then none else dtoiLoop rest (n * 10 + d) (i + 1)

/-- Go: `dtoi`. -/
def dtoi (s : List Char) : Option (Nat × Nat) :=
  match dtoiLoop s 0 0 with
  | none => none
  | some (n, i) => if i = 0 then none else some (n, i)

/-- Go: `net.ParseCIDR`: on success the address in 16-byte form and the network
(the masked address and the mask); `none` stands for the `ParseError`. -/
def ParseCIDR (s : String) : Option (IP × IPNet) :=
  let addr := s.data.takeWhile (fun c => c ≠ '/')
  if addr.length = s.data.length then none
  else
    let mask := s.data.drop (addr.length + 1)
    match netip.ParseAddr (String.mk addr) with
    | none => none
    | some ipAddr =>
      if ipAddr.Zone ≠ "" then none
      else
        match dtoi mask with
        | none => none
        | some (n, i) =>
          if i ≠ mask.length ∨ n > ipAddr.BitLen then none
          else
            let m := CIDRMask n ipAddr.BitLen
            some (ipAddr.As16, ⟨IP.Mask ipAddr.As16 m, m⟩)

end net

/-! ## The data pushed from Android and the values handed to tailscale -/

/-- The record `AndroidInterface`: `Addrs` holds CIDR strings such as `"192.168.1.5/24"`. -/
structure AndroidInterface where
  Name : String
  MTU : Int
  Addrs : List String
  deriving DecidableEq, Repr

/-- The snapshot `AndroidState`, the data pushed from Android. -/
structure AndroidState where
  Interfaces : List AndroidInterface
  DefaultInterface : String
  deriving DecidableEq, Repr

/-- The value of `lastState` before any update: the zero `AndroidState`. -/
def AndroidState.zero : AndroidState := ⟨[], ""⟩

namespace netmon

/-- Tailscale: `netmon.Interface`, a `net.Interface` with its addresses.  The addresses
this package stores are all `*net.IPNet`. -/
structure Interface where
  Interface : net.Interface
  AltAddrs : List net.IPNet
  deriving DecidableEq, Repr

end netmon

/-- A Go `error` value made by `fmt.Errorf`, or the error of `json.Unmarshal`
(then `args` is empty): the format and the formatted arguments. -/
structure GoError where
  format : String
  args : List String
  deriving DecidableEq, Repr

/-- Go: `fmt.Errorf`. -/
def Errorf (format : String) (args : List String) : GoError := ⟨format, args⟩

/-- The type of `net.ParseCIDR` with the error as `none`. -/
abbrev CIDRParser := String → Option (net.IP × net.IPNet)

/-- The type of `json.Unmarshal([]byte(jsonStr), &newState)` for a zero
`newState`: the decoded value and the error, `none` for `nil`. -/
abbrev Unmarshaler := String → AndroidState × Option GoError

/-- The type of `netmon.UpdateLastKnownDefaultRouteInterface` as seen by its
caller: `none` when the call returns, `some r` when it panics with a value
that prints as `r`. -/
abbrev Notifier := String → Option String

/-! ## `UpdateNetworkState` -/

/-- The function `UpdateNetworkState`: the new value of `lastState` and the returned error.
A decoding error is returned with `lastState` as it was.  Otherwise the
decoded state is stored, and a non-empty default interface is announced to
`netmon`; a panic of that call is caught by the deferred `recover`, which turns
it into the returned error. -/
def UpdateNetworkState (unmarshal : Unmarshaler) (notify : Notifier)
    (lastState : AndroidState) (jsonStr : String) : AndroidState × Option GoError :=
  match unmarshal jsonStr with
  | (_, some err) => (lastState, some err)
  | (newState, none) =>
    let lastState := newState
    if newState.DefaultInterface ≠ "" then
      match notify newState.DefaultInterface with
      | some r => (lastState, some (Errorf "panic: %v" [r]))
      | none => (lastState, none)
    else (lastState, none)

/-! ## `getAndroidInterfaces` -/

/-- The inner loop of `getAndroidInterfaces`: every entry that parses is
appended to `altAddrs` as the full address with the mask of its network, every
other entry is skipped. -/
def altAddrsLoop (parseCIDR : CIDRParser) : List String → List net.IPNet → List net.IPNet
  | [], altAddrs => altAddrs
  | cidr :: rest, altAddrs =>
    match parseCIDR cidr with
    | some (ip, ipnet) =>
      let fullAddr : net.IPNet := { IP := ip, Mask := ipnet.Mask }
      altAddrsLoop parseCIDR rest (altAddrs ++ [fullAddr])
    | none => altAddrsLoop parseCIDR rest altAddrs

/-- The outer loop of `getAndroidInterfaces`, at index `i`, with the
descriptors appended so far in `ret`. -/
def interfacesLoop (parseCIDR : CIDRParser) :
    List AndroidInterface → Nat → List netmon.Interface → List netmon.Interface
  | [], _, ret => ret
  | aIf :: rest, i, ret =>
    let nIf : net.Interface :=
      { Index := (i : Int) + 1
        MTU := aIf.MTU
        Name := aIf.Name
        HardwareAddr := []
        Flags := net.FlagUp ||| net.FlagMulticast ||| net.FlagBroadcast }
    let nIf : net.Interface :=
      if aIf.Name = "lo" ∨ aIf.Name = "wlan0" then
        { nIf with Flags := nIf.Flags ||| net.FlagMulticast }
      else nIf
    let altAddrs := altAddrsLoop parseCIDR aIf.Addrs []
    interfacesLoop parseCIDR rest (i + 1) (ret ++ [{ Interface := nIf, AltAddrs := altAddrs }])

/-- The descriptor returned while no interface is known. -/
def dummyInterface : netmon.Interface :=
  { Interface :=
      { Index := 1
        MTU := 1500
        Name := "dummy0"
        HardwareAddr := []
        Flags := net.FlagUp ||| net.FlagLoopback ||| net.FlagMulticast }
    AltAddrs := [{ IP := (net.ParseIP "127.0.0.1").getD [], Mask := net.CIDRMask 8 32 }] }

/-- The function `getAndroidInterfaces`: the interface list and the error (always `nil`). -/
def getAndroidInterfaces (parseCIDR : CIDRParser) (lastState : AndroidState) :
    List netmon.Interface × Option GoError :=
  if lastState.Interfaces.length = 0 then ([dummyInterface], none)
  else (interfacesLoop parseCIDR lastState.Interfaces 0 [], none)

/-! ## `getAndroidDefaultInterface` -/

/-- The first inner loop of `getAndroidDefaultInterface`: the address of the
first entry that parses to an IPv4 address, `none` when the loop runs out. -/
def firstIPv4Loop (parseCIDR : CIDRParser) : List String → Option netip.Addr
  | [] => none
  | cidr :: rest =>
    match parseCIDR cidr with
    | some (ip, _) =>
      match ip.To4 with
      | some ip4 => some (netip.AddrFromSlice ip4).1
      | none => firstIPv4Loop parseCIDR rest
    | none => firstIPv4Loop parseCIDR rest

/-- The second inner loop of `getAndroidDefaultInterface`: the address of the
first entry that parses, `none` when the loop runs out. -/
def firstParsedLoop (parseCIDR : CIDRParser) : List String → Option netip.Addr
  | [] => none
  | cidr :: rest =>
    match parseCIDR cidr with
    | some (ip, _) => some (netip.AddrFromSlice ip).1
    | none => firstParsedLoop parseCIDR rest

/-- The outer loop of `getAndroidDefaultInterface`: the address returned from
inside the loop, `none` when the loop runs out.  A record named `defName`
none of whose entries parses does not end the loop. -/
def defaultInterfaceLoop (parseCIDR : CIDRParser) (defName : String) :
    List AndroidInterface → Option netip.Addr
  | [] => none
  | iface :: rest =>
    if iface.Name = defName then
      match firstIPv4Loop parseCIDR iface.Addrs with
      | some addr => some addr
      | none =>
        match firstParsedLoop parseCIDR iface.Addrs with
        | some addr => some addr
        | none => defaultInterfaceLoop parseCIDR defName rest
    else defaultInterfaceLoop parseCIDR defName rest

/-- The function `getAndroidDefaultInterface`: the name, the address and the error. -/
def getAndroidDefaultInterface (parseCIDR : CIDRParser) (lastState : AndroidState) :
    String × netip.Addr × Option GoError :=
  let defName := lastState.DefaultInterface
  if defName = "" then ("dummy0", netip.AddrFrom4 [127, 0, 0, 1], none)
  else
    match defaultInterfaceLoop parseCIDR defName lastState.Interfaces with
    | some addr => (defName, addr, none)
    | none =>
      ("", netip.Addr.zero, some (Errorf "default interface %q found but has no IP" [defName]))

/-! ## Specification-side definitions -/

/-- The alternate addresses of a record as the specification words them: the
entries that parse as CIDR, in their order, each with its full address and the
mask of its network. -/
def parsedAddrs (parseCIDR : CIDRParser) (addrs : List String) : List net.IPNet :=
  addrs.filterMap (fun cidr => (parseCIDR cidr).map (fun p => { IP := p.1, Mask := p.2.Mask }))

/-- The first entry that parses to an IPv4 address, in its 4-byte form. -/
def firstIPv4 (parseCIDR : CIDRParser) (addrs : List String) : Option net.IP :=
  addrs.findSome? (fun cidr => (parseCIDR cidr).bind (fun p => p.1.To4))

/-- The first entry that parses at all, as `ParseCIDR` returns its address. -/
def firstParsed (parseCIDR : CIDRParser) (addrs : List String) : Option net.IP :=
  addrs.findSome? (fun cidr => (parseCIDR cidr).map (fun p => p.1))

/-- The descriptor the loop builds for the record `aIf` at index `i`. -/
def descriptor (parseCIDR : CIDRParser) (i : Nat) (aIf : AndroidInterface) : netmon.Interface :=
  { Interface :=
      { Index := (i : Int) + 1
        MTU := aIf.MTU
        Name := aIf.Name
        HardwareAddr := []
        Flags := net.FlagUp ||| net.FlagBroadcast ||| net.FlagMulticast }
    AltAddrs := parsedAddrs parseCIDR aIf.Addrs }

/-- The descriptors of the records `l`, the first of them at index `i`. -/
def descriptorsFrom (parseCIDR : CIDRParser) : List AndroidInterface → Nat → List netmon.Interface
  | [], _ => []
  | aIf :: rest, i => descriptor parseCIDR i aIf :: descriptorsFrom parseCIDR rest (i + 1)

/-- What one matching record contributes inside the outer loop. -/
def recordAddr (parseCIDR : CIDRParser) (addrs : List String) : Option netip.Addr :=
  match firstIPv4Loop parseCIDR addrs with
  | some addr => some addr
  | none => firstParsedLoop parseCIDR addrs

/-- A record named `defName` one of whose entries parses. -/
def usableRecord (parseCIDR : CIDRParser) (defName : String) (x : AndroidInterface) : Bool :=
  decide (x.Name = defName) && (firstParsed parseCIDR x.Addrs).isSome

/-! ## Concrete snapshots and payloads -/

/-- Scenario A: one interface with one IPv4 address, named as the default. -/
def scenarioA : AndroidState :=
  ⟨[⟨"wlan0", 1500, ["10.0.0.5/24"]⟩], "wlan0"⟩

/-- Scenario B: a malformed entry before a well-formed one, and a second
record none of whose entries parses. -/
def scenarioB : AndroidState :=
  ⟨[⟨"wlan0", 1500, ["bad-cidr", "192.168.1.5/24"]⟩, ⟨"lo", 65536, ["localhost", ""]⟩], "wlan0"⟩

/-- An IPv6 entry before an IPv4 entry on the default interface, which is the
second record. -/
def mixedFamilies : AndroidState :=
  ⟨[⟨"lo", 65536, ["127.0.0.1/8"]⟩, ⟨"rmnet0", 1400, ["fe80::1/64", "10.0.0.5/24"]⟩], "rmnet0"⟩

/-- A default interface with an IPv6 address only. -/
def onlyIPv6 : AndroidState :=
  ⟨[⟨"wlan0", 1500, ["bad-cidr", "2001:db8::68/32"]⟩], "wlan0"⟩

/-- Two records named as the default: the first has no entry that parses, the
second has one. -/
def duplicateName : AndroidState :=
  ⟨[⟨"wlan0", 1500, ["bad-cidr"]⟩, ⟨"wlan0", 1500, ["10.0.0.5/24"]⟩], "wlan0"⟩

/-- The default interface is listed, but none of its entries parses. -/
def unusableDefault : AndroidState :=
  ⟨[⟨"eth0", 1500, ["10.0.0.5/24"]⟩, ⟨"wlan0", 1500, ["bad-cidr", "10.0.0.5"]⟩], "wlan0"⟩

/-- The default interface is not listed. -/
def missingDefault : AndroidState :=
  ⟨[⟨"eth0", 1500, ["10.0.0.5/24"]⟩], "wlan0"⟩

/-- No interface records, with a default interface named all the same. -/
def noInterfaces : AndroidState := ⟨[], "wlan0"⟩

/-- Interface records without a default interface. -/
def noDefault : AndroidState :=
  ⟨[⟨"wlan0", 1500, ["10.0.0.5/24"]⟩], ""⟩

/-- The JSON text of `scenarioA`. -/
def payloadA : String :=
  "\x7b\"Interfaces\":[\x7b\"Name\":\"wlan0\",\"MTU\":1500,\"Addrs\":[\"10.0.0.5/24\"]\x7d],\"DefaultInterface\":\"wlan0\"\x7d"

/-- The JSON text of `noDefault`. -/
def payloadNoDefault : String :=
  "\x7b\"Interfaces\":[\x7b\"Name\":\"wlan0\",\"MTU\":1500,\"Addrs\":[\"10.0.0.5/24\"]\x7d],\"DefaultInterface\":\"\"\x7d"

/-- What `json.Unmarshal` gives on the payloads used in the examples: the two
texts above decode without error, the empty text is reported as
`unexpected end of JSON input`.  A text outside this table is answered like the
empty one; the table is applied to its own entries only. -/
def sampleUnmarshal : Unmarshaler := fun jsonStr =>
  if jsonStr = payloadA then (scenarioA, none)
  else if jsonStr = payloadNoDefault then (noDefault, none)
  else (AndroidState.zero, some ⟨"unexpected end of JSON input", []⟩)

/-- A notification that returns. -/
def quietNotify : Notifier := fun _ => none

/-- A notification that panics with a value printed as `listener failed`. -/
def panickingNotify : Notifier := fun _ => some "listener failed"

/-! ## Lemmas on the loops -/

theorem altAddrsLoop_eq (parseCIDR : CIDRParser) (addrs : List String) (acc : List net.IPNet) :
    altAddrsLoop parseCIDR addrs acc = acc ++ parsedAddrs parseCIDR addrs := by
  induction addrs generalizing acc with
  | nil => simp [altAddrsLoop, parsedAddrs]
  | cons cidr rest ih =>
    unfold altAddrsLoop
    cases h : parseCIDR cidr with
    | none => simp [ih, parsedAddrs, List.filterMap_cons, h]
    | some p =>
      obtain ⟨ip, ipnet⟩ := p
      simp [ih, parsedAddrs, List.filterMap_cons, h]

theorem interfacesLoop_eq (parseCIDR : CIDRParser) (l : List AndroidInterface) (i : Nat)
    (ret : List netmon.Interface) :
    interfacesLoop parseCIDR l i ret = ret ++ descriptorsFrom parseCIDR l i := by
  induction l generalizing i ret with
  | nil => simp [interfacesLoop, descriptorsFrom]
  | cons aIf rest ih =>
    unfold interfacesLoop
    simp only [ih, descriptorsFrom, altAddrsLoop_eq, List.nil_append, List.append_assoc,
      List.singleton_append]
    congr 2
    unfold descriptor
    split <;> simp [net.FlagUp, net.FlagMulticast, net.FlagBroadcast]

theorem descriptorsFrom_length (parseCIDR : CIDRParser) (l : List AndroidInterface) (i : Nat) :
    (descriptorsFrom parseCIDR l i).length = l.length := by
  induction l generalizing i with
  | nil => rfl
  | cons aIf rest ih => simp [descriptorsFrom, ih]

theorem descriptorsFrom_getElem (parseCIDR : CIDRParser) (l : List AndroidInterface)
    (i k : Nat) (r : AndroidInterface) (h : l[k]? = some r) :
    (descriptorsFrom parseCIDR l i)[k]? = some (descriptor parseCIDR (i + k) r) := by
  induction l generalizing i k with
  | nil => simp at h
  | cons aIf rest ih =>
    cases k with
    | zero =>
      simp at h
      simp [descriptorsFrom, h]
    | succ k =>
      simp at h
      simp only [descriptorsFrom, List.getElem?_cons_succ]
      rw [ih (i + 1) k h]
      congr 2
      omega

theorem descriptorsFrom_mem (parseCIDR : CIDRParser) (l : List AndroidInterface) (i : Nat)
    (r : AndroidInterface) (h : r ∈ l) :
    ∃ k, descriptor parseCIDR k r ∈ descriptorsFrom parseCIDR l i := by
  induction l generalizing i with
  | nil => simp at h
  | cons aIf rest ih =>
    rcases List.mem_cons.mp h with rfl | h
    · exact ⟨i, by simp [descriptorsFrom]⟩
    · obtain ⟨k, hk⟩ := ih (i + 1) h
      exact ⟨k, by simp [descriptorsFrom, hk]⟩

theorem getAndroidInterfaces_eq (parseCIDR : CIDRParser) (st : AndroidState)
    (h : st.Interfaces ≠ []) :
    getAndroidInterfaces parseCIDR st = (descriptorsFrom parseCIDR st.Interfaces 0, none) := by
  unfold getAndroidInterfaces
  have : st.Interfaces.length ≠ 0 := by simpa using h
  simp [this, interfacesLoop_eq]

theorem To4_length (ip ip4 : net.IP) (h : net.IP.To4 ip = some ip4) : ip4.length = 4 := by
  unfold net.IP.To4 at h
  split at h
  · cases h; assumption
  · split at h
    · cases h
      rename_i h16
      simp [h16.1]
    · cases h

theorem Unmap_of_To4 (ip ip4 : net.IP) (h : net.IP.To4 ip = some ip4) :
    (netip.AddrFromSlice ip).1.Unmap = netip.AddrFrom4 ip4 := by
  unfold net.IP.To4 at h
  split at h
  · cases h
    rename_i h4
    simp [netip.AddrFromSlice, h4, netip.Addr.Unmap, netip.Addr.Is4In6, netip.Addr.Is6,
      netip.AddrFrom4]
  · split at h
    · cases h
      rename_i h4 h16
      have hcat : netip.v4InV6Lead ++ List.drop 12 ip = ip := by
        rw [← h16.2]; exact List.take_append_drop 12 ip
      simp [netip.AddrFromSlice, h4, h16.1, h16.2, netip.Addr.Unmap, netip.Addr.Is4In6,
        netip.Addr.Is6, netip.AddrFrom4, netip.AddrFrom16, hcat]
    · cases h

theorem Unmap_of_To4_none (ip : net.IP) (h : net.IP.To4 ip = none) :
    (netip.AddrFromSlice ip).1.Unmap = (netip.AddrFromSlice ip).1 := by
  unfold net.IP.To4 at h
  split at h
  · cases h
  · split at h
    · cases h
    · rename_i h4 h16
      by_cases hl : ip.length = 16
      · have hne : ¬ List.take 12 ip = netip.v4InV6Lead := fun hc => h16 ⟨hl, hc⟩
        simp [netip.AddrFromSlice, h4, hl, netip.Addr.Unmap, netip.Addr.Is4In6, netip.Addr.Is6,
          netip.AddrFrom16, hne]
      · simp [netip.AddrFromSlice, h4, hl, netip.Addr.Unmap, netip.Addr.Is4In6, netip.Addr.Is6,
          netip.Addr.zero]

theorem firstIPv4Loop_eq (parseCIDR : CIDRParser) (addrs : List String) :
    firstIPv4Loop parseCIDR addrs = (firstIPv4 parseCIDR addrs).map netip.AddrFrom4 := by
  induction addrs with
  | nil => rfl
  | cons cidr rest ih =>
    unfold firstIPv4Loop
    cases h : parseCIDR cidr with
    | none => simp [ih, firstIPv4, List.findSome?_cons, h]
    | some p =>
      obtain ⟨ip, ipnet⟩ := p
      cases h4 : net.IP.To4 ip with
      | none => simp [ih, firstIPv4, List.findSome?_cons, h, h4]
      | some ip4 =>
        simp [firstIPv4, List.findSome?_cons, h, h4, netip.AddrFromSlice,
          To4_length ip ip4 h4]

theorem firstParsedLoop_eq (parseCIDR : CIDRParser) (addrs : List String) :
    firstParsedLoop parseCIDR addrs =
      (firstParsed parseCIDR addrs).map (fun ip => (netip.AddrFromSlice ip).1) := by
  induction addrs with
  | nil => rfl
  | cons cidr rest ih =>
    unfold firstParsedLoop
    cases h : parseCIDR cidr with
    | none => simp [ih, firstParsed, List.findSome?_cons, h]
    | some p =>
      obtain ⟨ip, ipnet⟩ := p
      simp [firstParsed, List.findSome?_cons, h]

theorem firstParsed_eq_none (parseCIDR : CIDRParser) (addrs : List String) :
    firstParsed parseCIDR addrs = none ↔ ∀ cidr ∈ addrs, parseCIDR cidr = none := by
  simp [firstParsed, List.findSome?_eq_none_iff]

theorem firstIPv4_eq_none_of_unparsed (parseCIDR : CIDRParser) (addrs : List String)
    (h : ∀ cidr ∈ addrs, parseCIDR cidr = none) : firstIPv4 parseCIDR addrs = none := by
  simp only [firstIPv4, List.findSome?_eq_none_iff]
  intro cidr hc
  simp [h cidr hc]

theorem defaultInterfaceLoop_cons (parseCIDR : CIDRParser) (defName : String)
    (iface : AndroidInterface) (rest : List AndroidInterface) :
    defaultInterfaceLoop parseCIDR defName (iface :: rest) =
      if iface.Name = defName then
        match recordAddr parseCIDR iface.Addrs with
        | some addr => some addr
        | none => defaultInterfaceLoop parseCIDR defName rest
      else defaultInterfaceLoop parseCIDR defName rest := by
  rw [defaultInterfaceLoop]
  unfold recordAddr
  split
  · cases firstIPv4Loop parseCIDR iface.Addrs with
    | some a => rfl
    | none =>
      cases firstParsedLoop parseCIDR iface.Addrs with
      | some a => rfl
      | none => rfl
  · rfl

theorem recordAddr_eq_none (parseCIDR : CIDRParser) (addrs : List String) :
    recordAddr parseCIDR addrs = none ↔ ∀ cidr ∈ addrs, parseCIDR cidr = none := by
  unfold recordAddr
  constructor
  · intro h
    split at h
    · cases h
    · rw [firstParsedLoop_eq] at h
      exact (firstParsed_eq_none parseCIDR addrs).mp (by simpa using h)
  · intro h
    rw [firstIPv4Loop_eq, firstIPv4_eq_none_of_unparsed parseCIDR addrs h]
    simp [firstParsedLoop_eq, (firstParsed_eq_none parseCIDR addrs).mpr h]

theorem defaultInterfaceLoop_find (parseCIDR : CIDRParser) (defName : String)
    (l : List AndroidInterface) (r : AndroidInterface)
    (hfind : l.find? (fun x => decide (x.Name = defName)) = some r)
    (hparse : ∃ cidr ∈ r.Addrs, parseCIDR cidr ≠ none) :
    defaultInterfaceLoop parseCIDR defName l = recordAddr parseCIDR r.Addrs := by
  induction l with
  | nil => simp at hfind
  | cons iface rest ih =>
    rw [defaultInterfaceLoop_cons]
    by_cases hn : iface.Name = defName
    · simp [List.find?_cons, hn] at hfind
      subst hfind
      have hne : recordAddr parseCIDR iface.Addrs ≠ none := by
        intro hc
        obtain ⟨cidr, hmem, hp⟩ := hparse
        exact hp ((recordAddr_eq_none parseCIDR iface.Addrs).mp hc cidr hmem)
      cases hr : recordAddr parseCIDR iface.Addrs with
      | none => exact absurd hr hne
      | some a => simp [hn]
    · simp [List.find?_cons, hn] at hfind
      simp [hn, ih hfind]

theorem defaultInterfaceLoop_none (parseCIDR : CIDRParser) (defName : String)
    (l : List AndroidInterface)
    (h : ∀ r ∈ l, r.Name = defName → ∀ cidr ∈ r.Addrs, parseCIDR cidr = none) :
    defaultInterfaceLoop parseCIDR defName l = none := by
  induction l with
  | nil => rfl
  | cons iface rest ih =>
    rw [defaultInterfaceLoop_cons]
    have ih1 := ih (fun r hr => h r (List.mem_cons_of_mem _ hr))
    by_cases hn : iface.Name = defName
    · have := (recordAddr_eq_none parseCIDR iface.Addrs).mpr (h iface (List.mem_cons_self _ _) hn)
      simp [hn, this, ih1]
    · simp [hn, ih1]

theorem recordAddr_some (parseCIDR : CIDRParser) (addrs : List String) (addr : netip.Addr)
    (h : recordAddr parseCIDR addrs = some addr) :
    ∃ cidr ∈ addrs, ∃ p, parseCIDR cidr = some p ∧ (netip.AddrFromSlice p.1).1.Unmap = addr := by
  unfold recordAddr at h
  split at h
  · rename_i a h4
    cases h
    rw [firstIPv4Loop_eq] at h4
    cases hf : firstIPv4 parseCIDR addrs with
    | none => simp [hf] at h4
    | some ip4 =>
      simp [hf] at h4
      unfold firstIPv4 at hf
      obtain ⟨cidr, hmem, hc⟩ := List.exists_of_findSome?_eq_some hf
      cases hp : parseCIDR cidr with
      | none => simp [hp] at hc
      | some p =>
        simp [hp] at hc
        exact ⟨cidr, hmem, p, hp, by rw [Unmap_of_To4 p.1 ip4 hc, h4]⟩
  · rename_i h4
    rw [firstParsedLoop_eq] at h
    rw [firstIPv4Loop_eq] at h4
    cases hf : firstParsed parseCIDR addrs with
    | none => simp [hf] at h
    | some ip =>
      simp [hf] at h
      have hf2 := hf
      unfold firstParsed at hf
      obtain ⟨cidr, hmem, hc⟩ := List.exists_of_findSome?_eq_some hf
      cases hp : parseCIDR cidr with
      | none => simp [hp] at hc
      | some p =>
        simp [hp] at hc
        refine ⟨cidr, hmem, p, hp, ?_⟩
        have hnone : net.IP.To4 p.1 = none := by
          have h4n : firstIPv4 parseCIDR addrs = none := by simpa using h4
          unfold firstIPv4 at h4n
          have := (List.findSome?_eq_none_iff.mp h4n) cidr hmem
          simpa [hp] using this
        rw [Unmap_of_To4_none p.1 hnone, hc, h]

theorem defaultInterfaceLoop_some (parseCIDR : CIDRParser) (defName : String)
    (l : List AndroidInterface) (addr : netip.Addr)
    (h : defaultInterfaceLoop parseCIDR defName l = some addr) :
    ∃ r ∈ l, r.Name = defName ∧ recordAddr parseCIDR r.Addrs = some addr := by
  induction l with
  | nil => simp [defaultInterfaceLoop] at h
  | cons iface rest ih =>
    rw [defaultInterfaceLoop_cons] at h
    by_cases hn : iface.Name = defName
    · cases hr : recordAddr parseCIDR iface.Addrs with
      | none =>
        simp [hn, hr] at h
        obtain ⟨r, hmem, hname, hrec⟩ := ih h
        exact ⟨r, List.mem_cons_of_mem _ hmem, hname, hrec⟩
      | some a =>
        simp [hn, hr] at h
        exact ⟨iface, List.mem_cons_self _ _, hn, by rw [hr, h]⟩
    · simp [hn] at h
      obtain ⟨r, hmem, hname, hrec⟩ := ih h
      exact ⟨r, List.mem_cons_of_mem _ hmem, hname, hrec⟩

theorem getAndroidDefaultInterface_of_none (parseCIDR : CIDRParser) (st : AndroidState)
    (hdef : st.DefaultInterface ≠ "")
    (h : defaultInterfaceLoop parseCIDR st.DefaultInterface st.Interfaces = none) :
    getAndroidDefaultInterface parseCIDR st =
      ("", netip.Addr.zero,
        some (Errorf "default interface %q found but has no IP" [st.DefaultInterface])) := by
  simp [getAndroidDefaultInterface, hdef, h]

theorem getAndroidDefaultInterface_of_some (parseCIDR : CIDRParser) (st : AndroidState)
    (addr : netip.Addr) (hdef : st.DefaultInterface ≠ "")
    (h : defaultInterfaceLoop parseCIDR st.DefaultInterface st.Interfaces = some addr) :
    getAndroidDefaultInterface parseCIDR st = (st.DefaultInterface, addr, none) := by
  simp [getAndroidDefaultInterface, hdef, h]

theorem recordAddr_of_firstParsed (parseCIDR : CIDRParser) (addrs : List String)
    (h : firstParsed parseCIDR addrs ≠ none) :
    ∃ addr, recordAddr parseCIDR addrs = some addr ∧
      (∀ ip4, firstIPv4 parseCIDR addrs = some ip4 → addr = netip.AddrFrom4 ip4) ∧
      (firstIPv4 parseCIDR addrs = none →
        ∀ ip, firstParsed parseCIDR addrs = some ip → addr = (netip.AddrFromSlice ip).1) := by
  cases hr : recordAddr parseCIDR addrs with
  | none =>
    exact absurd ((firstParsed_eq_none parseCIDR addrs).mpr
      ((recordAddr_eq_none parseCIDR addrs).mp hr)) h
  | some addr =>
    refine ⟨addr, rfl, ?_, ?_⟩
    · intro ip4 h4
      simp only [recordAddr, firstIPv4Loop_eq, h4, Option.map_some'] at hr
      exact (Option.some.inj hr).symm
    · intro h4 ip hip
      simp only [recordAddr, firstIPv4Loop_eq, h4, Option.map_none', firstParsedLoop_eq, hip,
        Option.map_some'] at hr
      exact (Option.some.inj hr).symm

theorem defaultInterfaceLoop_find_usable (parseCIDR : CIDRParser) (defName : String)
    (l : List AndroidInterface) (r : AndroidInterface)
    (hfind : l.find? (usableRecord parseCIDR defName) = some r) :
    defaultInterfaceLoop parseCIDR defName l = recordAddr parseCIDR r.Addrs := by
  induction l with
  | nil => simp at hfind
  | cons iface rest ih =>
    rw [defaultInterfaceLoop_cons]
    by_cases hn : iface.Name = defName
    · cases hp : firstParsed parseCIDR iface.Addrs with
      | none =>
        have hu : usableRecord parseCIDR defName iface = false := by
          simp [usableRecord, hp]
        have hnone : recordAddr parseCIDR iface.Addrs = none :=
          (recordAddr_eq_none parseCIDR iface.Addrs).mpr
            ((firstParsed_eq_none parseCIDR iface.Addrs).mp hp)
        simp only [List.find?_cons, hu] at hfind
        simp [hn, hnone, ih hfind]
      | some ip =>
        have hu : usableRecord parseCIDR defName iface = true := by
          simp [usableRecord, hn, hp]
        simp only [List.find?_cons, hu, Option.some.injEq] at hfind
        subst hfind
        obtain ⟨addr, haddr, _⟩ :=
          recordAddr_of_firstParsed parseCIDR iface.Addrs (by simp [hp])
        simp [hn, haddr]
    · have hu : usableRecord parseCIDR defName iface = false := by
        simp [usableRecord, hn]
      simp only [List.find?_cons, hu] at hfind
      simp [hn, ih hfind]

theorem find_usableRecord_eq_none (parseCIDR : CIDRParser) (defName : String)
    (l : List AndroidInterface) :
    l.find? (usableRecord parseCIDR defName) = none ↔
      ∀ r ∈ l, r.Name = defName → ∀ cidr ∈ r.Addrs, parseCIDR cidr = none := by
  rw [List.find?_eq_none]
  constructor
  · intro h r hr hn
    have hu := h r hr
    have hp : firstParsed parseCIDR r.Addrs = none := by
      cases hf : firstParsed parseCIDR r.Addrs with
      | none => rfl
      | some ip => simp [usableRecord, hn, hf] at hu
    exact (firstParsed_eq_none parseCIDR r.Addrs).mp hp
  · intro h r hr
    by_cases hn : r.Name = defName
    · simp [usableRecord, (firstParsed_eq_none parseCIDR r.Addrs).mpr (h r hr hn)]
    · simp [usableRecord, hn]

theorem defaultInterfaceLoop_eq_none (parseCIDR : CIDRParser) (defName : String)
    (l : List AndroidInterface) :
    defaultInterfaceLoop parseCIDR defName l = none ↔
      ∀ r ∈ l, r.Name = defName → ∀ cidr ∈ r.Addrs, parseCIDR cidr = none := by
  constructor
  · intro h
    cases hf : l.find? (usableRecord parseCIDR defName) with
    | none => exact (find_usableRecord_eq_none parseCIDR defName l).mp hf
    | some r =>
      have hu : usableRecord parseCIDR defName r = true := List.find?_some hf
      have hp : firstParsed parseCIDR r.Addrs ≠ none := by
        intro hc
        simp [usableRecord, hc] at hu
      obtain ⟨addr, haddr, _⟩ := recordAddr_of_firstParsed parseCIDR r.Addrs hp
      rw [defaultInterfaceLoop_find_usable parseCIDR defName l r hf, haddr] at h
      cases h
  · exact defaultInterfaceLoop_none parseCIDR defName l

/-! ## The claims -/

/-- C1: when the payload fails to decode, `UpdateNetworkState` returns the
decoding error (so not `nil`) and `lastState` is what it was, so both queries
give after the call what they gave before it. -/
theorem UpdateNetworkState_malformed (unmarshal : Unmarshaler) (notify : Notifier)
    (parseCIDR : CIDRParser) (lastState : AndroidState) (jsonStr : String)
    (h : (unmarshal jsonStr).2 ≠ none) :
    (UpdateNetworkState unmarshal notify lastState jsonStr).2 = (unmarshal jsonStr).2 ∧
    (UpdateNetworkState unmarshal notify lastState jsonStr).2 ≠ none ∧
    (UpdateNetworkState unmarshal notify lastState jsonStr).1 = lastState ∧
    getAndroidInterfaces parseCIDR (UpdateNetworkState unmarshal notify lastState jsonStr).1 =
      getAndroidInterfaces parseCIDR lastState ∧
    getAndroidDefaultInterface parseCIDR (UpdateNetworkState unmarshal notify lastState jsonStr).1 =
      getAndroidDefaultInterface parseCIDR lastState := by
  have hst : UpdateNetworkState unmarshal notify lastState jsonStr =
      (lastState, (unmarshal jsonStr).2) := by
    unfold UpdateNetworkState
    rcases hu : unmarshal jsonStr with ⟨newState, _ | err⟩
    · simp [hu] at h
    · rfl
  rw [hst]
  exact ⟨rfl, h, rfl, rfl, rfl⟩

/-- C1 at the empty payload, pushed over `scenarioA` with a notification that
would panic: the error is returned and `scenarioA` stays. -/
theorem UpdateNetworkState_malformed_witness :
    UpdateNetworkState sampleUnmarshal panickingNotify scenarioA "" =
      (scenarioA, some ⟨"unexpected end of JSON input", []⟩) ∧
    getAndroidDefaultInterface net.ParseCIDR
        (UpdateNetworkState sampleUnmarshal panickingNotify scenarioA "").1 =
      ("wlan0", netip.AddrFrom4 [10, 0, 0, 5], none) := by
  have h := UpdateNetworkState_malformed sampleUnmarshal panickingNotify net.ParseCIDR
    scenarioA "" (by decide)
  refine ⟨Prod.ext h.2.2.1 (h.1.trans (by decide)), ?_⟩
  rw [h.2.2.2.2]
  decide


/-- C2: for a snapshot with at least one record, `getAndroidInterfaces` returns
no error and one descriptor per record, in the order of the records; the
descriptor at position `i` has `Index` `i + 1`, the record's `Name` and `MTU`,
the flags up, broadcast and multicast whatever the name, and as addresses the
entries of `Addrs` that parse, in their order, each with the full address and
the mask of its network; a record none of whose entries parses has a
descriptor without addresses. -/
theorem getAndroidInterfaces_records (parseCIDR : CIDRParser) (st : AndroidState)
    (h : st.Interfaces ≠ []) :
    (getAndroidInterfaces parseCIDR st).2 = none ∧
    (getAndroidInterfaces parseCIDR st).1.length = st.Interfaces.length ∧
    ∀ (i : Nat) (r : AndroidInterface), st.Interfaces[i]? = some r →
      ∃ d, (getAndroidInterfaces parseCIDR st).1[i]? = some d ∧
        d.Interface.Index = (i : Int) + 1 ∧
        d.Interface.Name = r.Name ∧
        d.Interface.MTU = r.MTU ∧
        d.Interface.Flags = net.FlagUp ||| net.FlagBroadcast ||| net.FlagMulticast ∧
        d.AltAddrs = r.Addrs.filterMap
          (fun cidr => (parseCIDR cidr).map (fun p => { IP := p.1, Mask := p.2.Mask })) ∧
        ((∀ cidr ∈ r.Addrs, parseCIDR cidr = none) → d.AltAddrs = []) := by
  rw [getAndroidInterfaces_eq parseCIDR st h]
  refine ⟨rfl, descriptorsFrom_length parseCIDR st.Interfaces 0, ?_⟩
  intro i r hr
  refine ⟨descriptor parseCIDR i r, ?_, rfl, rfl, rfl, rfl, rfl, ?_⟩
  · simpa using descriptorsFrom_getElem parseCIDR st.Interfaces 0 i r hr
  · intro hall
    simp only [descriptor, parsedAddrs, List.filterMap_eq_nil_iff]
    intro cidr hc
    simp [hall cidr hc]

/-- C2 on `scenarioB`: two descriptors; the first keeps the one entry that
parses, `192.168.1.5/24`, the second has no address. -/
theorem getAndroidInterfaces_records_witness :
    getAndroidInterfaces net.ParseCIDR scenarioB =
      ([{ Interface :=
            { Index := 1, MTU := 1500, Name := "wlan0", HardwareAddr := [], Flags := 19 }
          AltAddrs :=
            [{ IP := [0, 0, 0, 0, 0, 0, 0, 0, 0, 0, 255, 255, 192, 168, 1, 5]
               Mask := [255, 255, 255, 0] }] },
        { Interface :=
            { Index := 2, MTU := 65536, Name := "lo", HardwareAddr := [], Flags := 19 }
          AltAddrs := [] }], none) ∧
    (getAndroidInterfaces net.ParseCIDR scenarioB).1.length = 2 :=
  ⟨by decide, (getAndroidInterfaces_records net.ParseCIDR scenarioB (by decide)).2.1⟩

/-- C3: when the default name is not empty and the first record of that name
has an entry that parses, `getAndroidDefaultInterface` returns that name, no
error, and the address of the first entry of that record that parses to an
IPv4 address (one for which `To4` is not `nil`), in 4-byte form; when the
record has no such entry it returns the address of its first entry that
parses. -/
theorem getAndroidDefaultInterface_found (parseCIDR : CIDRParser) (st : AndroidState)
    (r : AndroidInterface)
    (hdef : st.DefaultInterface ≠ "")
    (hfind : st.Interfaces.find? (fun x => decide (x.Name = st.DefaultInterface)) = some r)
    (hparse : ∃ cidr ∈ r.Addrs, parseCIDR cidr ≠ none) :
    (getAndroidDefaultInterface parseCIDR st).1 = st.DefaultInterface ∧
    (getAndroidDefaultInterface parseCIDR st).2.2 = none ∧
    firstParsed parseCIDR r.Addrs ≠ none ∧
    (∀ ip4, firstIPv4 parseCIDR r.Addrs = some ip4 →
      (getAndroidDefaultInterface parseCIDR st).2.1 = netip.AddrFrom4 ip4) ∧
    (firstIPv4 parseCIDR r.Addrs = none →
      ∀ ip, firstParsed parseCIDR r.Addrs = some ip →
        (getAndroidDefaultInterface parseCIDR st).2.1 = (netip.AddrFromSlice ip).1) := by
  have hloop := defaultInterfaceLoop_find parseCIDR st.DefaultInterface st.Interfaces r hfind hparse
  have hne : firstParsed parseCIDR r.Addrs ≠ none := by
    intro hc
    obtain ⟨cidr, hmem, hp⟩ := hparse
    exact hp ((firstParsed_eq_none parseCIDR r.Addrs).mp hc cidr hmem)
  have hrec : ∃ addr, recordAddr parseCIDR r.Addrs = some addr := by
    cases hr : recordAddr parseCIDR r.Addrs with
    | some addr => exact ⟨addr, rfl⟩
    | none =>
      obtain ⟨cidr, hmem, hp⟩ := hparse
      exact absurd ((recordAddr_eq_none parseCIDR r.Addrs).mp hr cidr hmem) hp
  obtain ⟨addr, haddr⟩ := hrec
  rw [getAndroidDefaultInterface_of_some parseCIDR st addr hdef (hloop.trans haddr)]
  refine ⟨rfl, rfl, hne, ?_, ?_⟩
  · intro ip4 h4
    simp only [recordAddr, firstIPv4Loop_eq, h4, Option.map_some'] at haddr
    exact (Option.some.inj haddr).symm
  · intro h4 ip hip
    simp only [recordAddr, firstIPv4Loop_eq, h4, Option.map_none', firstParsedLoop_eq, hip,
      Option.map_some'] at haddr
    exact (Option.some.inj haddr).symm

/-- C3 on `mixedFamilies`: the default interface is the second record and its
IPv6 entry comes first, yet the IPv4 address `10.0.0.5` is returned. -/
theorem getAndroidDefaultInterface_found_witness :
    firstIPv4 net.ParseCIDR ["fe80::1/64", "10.0.0.5/24"] = some [10, 0, 0, 5] ∧
    getAndroidDefaultInterface net.ParseCIDR mixedFamilies =
      ("rmnet0", netip.AddrFrom4 [10, 0, 0, 5], none) ∧
    firstIPv4 net.ParseCIDR ["bad-cidr", "2001:db8::68/32"] = none ∧
    getAndroidDefaultInterface net.ParseCIDR onlyIPv6 =
      ("wlan0", netip.AddrFrom16 [0x20, 0x01, 0x0d, 0xb8, 0, 0, 0, 0, 0, 0, 0, 0, 0, 0, 0, 0x68],
        none) := by
  have h := getAndroidDefaultInterface_found net.ParseCIDR mixedFamilies
    ⟨"rmnet0", 1400, ["fe80::1/64", "10.0.0.5/24"]⟩ (by decide) (by decide)
    ⟨"10.0.0.5/24", by decide, by decide⟩
  have h4 : firstIPv4 net.ParseCIDR ["fe80::1/64", "10.0.0.5/24"] = some [10, 0, 0, 5] := by
    decide
  have k := getAndroidDefaultInterface_found net.ParseCIDR onlyIPv6
    ⟨"wlan0", 1500, ["bad-cidr", "2001:db8::68/32"]⟩ (by decide) (by decide)
    ⟨"2001:db8::68/32", by decide, by decide⟩
  have k4 : firstIPv4 net.ParseCIDR ["bad-cidr", "2001:db8::68/32"] = none := by decide
  have k6 : firstParsed net.ParseCIDR ["bad-cidr", "2001:db8::68/32"] =
      some [0x20, 0x01, 0x0d, 0xb8, 0, 0, 0, 0, 0, 0, 0, 0, 0, 0, 0, 0x68] := by decide
  exact ⟨h4, Prod.ext h.1 (Prod.ext (h.2.2.2.1 _ h4) h.2.1), k4,
    Prod.ext k.1 (Prod.ext (k.2.2.2.2 k4 _ k6) k.2.1)⟩

/-- C4 as stated fails on `duplicateName`: the first record named `wlan0` has
no entry that parses, and the call succeeds with the address of the second
record of that name. -/
theorem getAndroidDefaultInterface_first_record_counterexample :
    duplicateName.DefaultInterface ≠ "" ∧
    duplicateName.Interfaces.find? (fun x => decide (x.Name = duplicateName.DefaultInterface)) =
      some ⟨"wlan0", 1500, ["bad-cidr"]⟩ ∧
    (∀ cidr ∈ ["bad-cidr"], net.ParseCIDR cidr = none) ∧
    getAndroidDefaultInterface net.ParseCIDR duplicateName =
      ("wlan0", netip.AddrFrom4 [10, 0, 0, 5], none) := by
  decide

/-- C4, amended: when the default name is not empty,
`getAndroidDefaultInterface` fails exactly when no record of that name has an
entry that parses, whatever the records of other names are; it then returns
the empty name, the zero address and an error.  A record of that name without
an entry that parses does not end the scan: when some record of that name has
an entry that parses, the call returns the default name, no error, and the
address of the first such record, its first IPv4 entry or else its first
entry that parses. -/
theorem getAndroidDefaultInterface_unusable (parseCIDR : CIDRParser) (st : AndroidState)
    (hdef : st.DefaultInterface ≠ "") :
    ((∀ r ∈ st.Interfaces, r.Name = st.DefaultInterface →
        ∀ cidr ∈ r.Addrs, parseCIDR cidr = none) →
      getAndroidDefaultInterface parseCIDR st =
        ("", netip.Addr.zero,
          some (Errorf "default interface %q found but has no IP" [st.DefaultInterface]))) ∧
    ((getAndroidDefaultInterface parseCIDR st).2.2 ≠ none ↔
      ∀ r ∈ st.Interfaces, r.Name = st.DefaultInterface →
        ∀ cidr ∈ r.Addrs, parseCIDR cidr = none) ∧
    ((∃ r ∈ st.Interfaces, r.Name = st.DefaultInterface ∧
        ∃ cidr ∈ r.Addrs, parseCIDR cidr ≠ none) →
      ∃ r, st.Interfaces.find? (usableRecord parseCIDR st.DefaultInterface) = some r) ∧
    (∀ r, st.Interfaces.find? (usableRecord parseCIDR st.DefaultInterface) = some r →
      r ∈ st.Interfaces ∧
      r.Name = st.DefaultInterface ∧
      (getAndroidDefaultInterface parseCIDR st).1 = st.DefaultInterface ∧
      (getAndroidDefaultInterface parseCIDR st).2.2 = none ∧
      (∀ ip4, firstIPv4 parseCIDR r.Addrs = some ip4 →
        (getAndroidDefaultInterface parseCIDR st).2.1 = netip.AddrFrom4 ip4) ∧
      (firstIPv4 parseCIDR r.Addrs = none →
        ∀ ip, firstParsed parseCIDR r.Addrs = some ip →
          (getAndroidDefaultInterface parseCIDR st).2.1 = (netip.AddrFromSlice ip).1)) := by
  have hfail : (∀ r ∈ st.Interfaces, r.Name = st.DefaultInterface →
        ∀ cidr ∈ r.Addrs, parseCIDR cidr = none) →
      getAndroidDefaultInterface parseCIDR st =
        ("", netip.Addr.zero,
          some (Errorf "default interface %q found but has no IP" [st.DefaultInterface])) :=
    fun hall => getAndroidDefaultInterface_of_none parseCIDR st hdef
      (defaultInterfaceLoop_none parseCIDR st.DefaultInterface st.Interfaces hall)
  refine ⟨hfail, ⟨?_, ?_⟩, ?_, ?_⟩
  · intro herr
    cases hl : defaultInterfaceLoop parseCIDR st.DefaultInterface st.Interfaces with
    | none => exact (defaultInterfaceLoop_eq_none parseCIDR _ _).mp hl
    | some addr =>
      rw [getAndroidDefaultInterface_of_some parseCIDR st addr hdef hl] at herr
      exact absurd rfl herr
  · intro hall
    rw [hfail hall]
    simp
  · rintro ⟨r, hr, hn, cidr, hc, hp⟩
    cases hf : st.Interfaces.find? (usableRecord parseCIDR st.DefaultInterface) with
    | some r' => exact ⟨r', rfl⟩
    | none =>
      exact absurd ((find_usableRecord_eq_none parseCIDR _ _).mp hf r hr hn cidr hc) hp
  · intro r hf
    have hu : usableRecord parseCIDR st.DefaultInterface r = true := List.find?_some hf
    have hn : r.Name = st.DefaultInterface := by
      by_contra hc
      simp [usableRecord, hc] at hu
    have hp : firstParsed parseCIDR r.Addrs ≠ none := by
      intro hc
      simp [usableRecord, hc] at hu
    obtain ⟨addr, haddr, h4, h6⟩ := recordAddr_of_firstParsed parseCIDR r.Addrs hp
    rw [getAndroidDefaultInterface_of_some parseCIDR st addr hdef
      ((defaultInterfaceLoop_find_usable parseCIDR _ _ r hf).trans haddr)]
    exact ⟨List.mem_of_find?_eq_some hf, hn, rfl, rfl, h4, h6⟩

/-- C4, amended, on `unusableDefault`, where `wlan0` is listed with two
entries that do not parse next to another interface with an address, and on
`duplicateName`, where the second record named `wlan0` supplies the address. -/
theorem getAndroidDefaultInterface_unusable_witness :
    getAndroidDefaultInterface net.ParseCIDR unusableDefault =
      ("", netip.Addr.zero,
        some (Errorf "default interface %q found but has no IP" ["wlan0"])) ∧
    duplicateName.Interfaces.find? (usableRecord net.ParseCIDR "wlan0") =
      some ⟨"wlan0", 1500, ["10.0.0.5/24"]⟩ ∧
    getAndroidDefaultInterface net.ParseCIDR duplicateName =
      ("wlan0", netip.AddrFrom4 [10, 0, 0, 5], none) := by
  have hf : duplicateName.Interfaces.find? (usableRecord net.ParseCIDR "wlan0") =
      some ⟨"wlan0", 1500, ["10.0.0.5/24"]⟩ := by decide
  have h4 : firstIPv4 net.ParseCIDR ["10.0.0.5/24"] = some [10, 0, 0, 5] := by decide
  have k := (getAndroidDefaultInterface_unusable net.ParseCIDR duplicateName
    (by decide)).2.2.2 _ hf
  exact ⟨(getAndroidDefaultInterface_unusable net.ParseCIDR unusableDefault (by decide)).1
      (by decide), hf,
    Prod.ext k.2.2.1 (Prod.ext (k.2.2.2.2.1 _ h4) k.2.2.2.1)⟩

/-- C5 as stated fails: `payloadA` decodes, its default interface is `wlan0`,
the notification panics, and `UpdateNetworkState` returns an error, not `nil`. -/
theorem UpdateNetworkState_notify_panic_counterexample :
    (sampleUnmarshal payloadA).2 = none ∧
    (sampleUnmarshal payloadA).1.DefaultInterface ≠ "" ∧
    panickingNotify (sampleUnmarshal payloadA).1.DefaultInterface ≠ none ∧
    (UpdateNetworkState sampleUnmarshal panickingNotify AndroidState.zero payloadA).2 =
      some (Errorf "panic: %v" ["listener failed"]) ∧
    (UpdateNetworkState sampleUnmarshal panickingNotify AndroidState.zero payloadA).2 ≠ none := by
  decide

/-- C5, amended: for a payload that decodes with a non-empty default interface,
a panic of the notification does not leave `UpdateNetworkState`: the deferred
`recover` turns it into the returned error `panic: <value>`, and the decoded
snapshot is the stored one, exactly as when the notification returns (where the
result is `nil`). -/
theorem UpdateNetworkState_notify_panic (unmarshal : Unmarshaler) (notify : Notifier)
    (lastState : AndroidState) (jsonStr r : String)
    (hok : (unmarshal jsonStr).2 = none)
    (hdef : (unmarshal jsonStr).1.DefaultInterface ≠ "")
    (hpanic : notify (unmarshal jsonStr).1.DefaultInterface = some r) :
    UpdateNetworkState unmarshal notify lastState jsonStr =
      ((unmarshal jsonStr).1, some (Errorf "panic: %v" [r])) ∧
    ∀ quiet : Notifier, quiet (unmarshal jsonStr).1.DefaultInterface = none →
      UpdateNetworkState unmarshal quiet lastState jsonStr = ((unmarshal jsonStr).1, none) := by
  rcases hu : unmarshal jsonStr with ⟨newState, _ | err⟩
  · rw [hu] at hdef hpanic
    simp only at hdef hpanic
    constructor
    · simp [UpdateNetworkState, hu, hdef, hpanic]
    · intro quiet hq
      simp [UpdateNetworkState, hu, hdef, hq]
  · simp [hu] at hok

/-- C5, amended, on `payloadA` pushed over `noDefault`. -/
theorem UpdateNetworkState_notify_panic_witness :
    UpdateNetworkState sampleUnmarshal panickingNotify noDefault payloadA =
      (scenarioA, some (Errorf "panic: %v" ["listener failed"])) ∧
    UpdateNetworkState sampleUnmarshal quietNotify noDefault payloadA = (scenarioA, none) := by
  have h := UpdateNetworkState_notify_panic sampleUnmarshal panickingNotify noDefault payloadA
    "listener failed" (by decide) (by decide) (by decide)
  exact ⟨h.1.trans (by decide), (h.2 quietNotify (by decide)).trans (by decide)⟩

/-- C6: for a snapshot without interface records, whatever its default name,
`getAndroidInterfaces` returns no error and exactly one descriptor: `Index` 1,
`MTU` 1500, `Name` `dummy0`, the flags up, loopback and multicast, and the one
address `127.0.0.1/8`; and for no snapshot is the returned list empty. -/
theorem getAndroidInterfaces_empty (parseCIDR : CIDRParser) (st : AndroidState) :
    (st.Interfaces = [] →
      getAndroidInterfaces parseCIDR st =
        ([{ Interface :=
              { Index := 1
                MTU := 1500
                Name := "dummy0"
                HardwareAddr := []
                Flags := net.FlagUp ||| net.FlagLoopback ||| net.FlagMulticast }
            AltAddrs :=
              [{ IP := [0, 0, 0, 0, 0, 0, 0, 0, 0, 0, 0xff, 0xff, 127, 0, 0, 1]
                 Mask := [0xff, 0, 0, 0] }] }], none)) ∧
    net.IP.To4 [0, 0, 0, 0, 0, 0, 0, 0, 0, 0, 0xff, 0xff, 127, 0, 0, 1] = some [127, 0, 0, 1] ∧
    net.CIDRMask 8 32 = [0xff, 0, 0, 0] ∧
    (getAndroidInterfaces parseCIDR st).2 = none ∧
    (getAndroidInterfaces parseCIDR st).1 ≠ [] := by
  refine ⟨?_, by decide, by decide, ?_, ?_⟩
  · intro h
    have hd : dummyInterface =
        { Interface :=
            { Index := 1
              MTU := 1500
              Name := "dummy0"
              HardwareAddr := []
              Flags := net.FlagUp ||| net.FlagLoopback ||| net.FlagMulticast }
          AltAddrs :=
            [{ IP := [0, 0, 0, 0, 0, 0, 0, 0, 0, 0, 0xff, 0xff, 127, 0, 0, 1]
               Mask := [0xff, 0, 0, 0] }] } := by decide
    simp [getAndroidInterfaces, h, hd]
  · unfold getAndroidInterfaces
    split <;> rfl
  · by_cases h : st.Interfaces = []
    · simp [getAndroidInterfaces, h]
    · rw [getAndroidInterfaces_eq parseCIDR st h]
      intro hc
      have hl := descriptorsFrom_length parseCIDR st.Interfaces 0
      simp only at hc
      rw [hc] at hl
      exact h (List.length_eq_zero.mp hl.symm)

/-- C6 on the state before any update and on a snapshot that names a default
interface but lists none: the same single descriptor. -/
theorem getAndroidInterfaces_empty_witness :
    getAndroidInterfaces net.ParseCIDR AndroidState.zero =
      ([{ Interface :=
            { Index := 1, MTU := 1500, Name := "dummy0", HardwareAddr := [], Flags := 21 }
          AltAddrs :=
            [{ IP := [0, 0, 0, 0, 0, 0, 0, 0, 0, 0, 255, 255, 127, 0, 0, 1]
               Mask := [255, 0, 0, 0] }] }], none) ∧
    getAndroidInterfaces net.ParseCIDR noInterfaces =
      getAndroidInterfaces net.ParseCIDR AndroidState.zero :=
  ⟨(getAndroidInterfaces_empty net.ParseCIDR AndroidState.zero).1 rfl,
    ((getAndroidInterfaces_empty net.ParseCIDR noInterfaces).1 rfl).trans
      ((getAndroidInterfaces_empty net.ParseCIDR AndroidState.zero).1 rfl).symm⟩

/-- C7: for a snapshot whose default name is empty, whatever records it holds,
`getAndroidDefaultInterface` returns the name `dummy0`, the IPv4 address
`127.0.0.1` and no error. -/
theorem getAndroidDefaultInterface_placeholder (parseCIDR : CIDRParser) (st : AndroidState)
    (h : st.DefaultInterface = "") :
    getAndroidDefaultInterface parseCIDR st = ("dummy0", netip.AddrFrom4 [127, 0, 0, 1], none) ∧
    (netip.AddrFrom4 [127, 0, 0, 1]).AsSlice = [127, 0, 0, 1] ∧
    (netip.AddrFrom4 [127, 0, 0, 1]).z = netip.Z.z4 := by
  refine ⟨?_, by decide, rfl⟩
  simp [getAndroidDefaultInterface, h]

/-- C7 on the state before any update and on `noDefault`, which lists an
interface with an address. -/
theorem getAndroidDefaultInterface_placeholder_witness :
    getAndroidDefaultInterface net.ParseCIDR AndroidState.zero =
      ("dummy0", netip.AddrFrom4 [127, 0, 0, 1], none) ∧
    getAndroidDefaultInterface net.ParseCIDR noDefault =
      ("dummy0", netip.AddrFrom4 [127, 0, 0, 1], none) :=
  ⟨(getAndroidDefaultInterface_placeholder net.ParseCIDR AndroidState.zero rfl).1,
    (getAndroidDefaultInterface_placeholder net.ParseCIDR noDefault rfl).1⟩

/-- C8: for a payload that decodes, `UpdateNetworkState` stores the decoded
snapshot whatever the state before: from any two prior states the stored
snapshot and the results of both queries are the same, the call returns `nil`
when the notification returns, and pushing the payload a second time leaves
the state and both query results as they were after the first push. -/
theorem UpdateNetworkState_replaces (unmarshal : Unmarshaler) (notify₁ notify₂ notify₃ : Notifier)
    (parseCIDR : CIDRParser) (st₁ st₂ : AndroidState) (jsonStr : String)
    (hok : (unmarshal jsonStr).2 = none) :
    (UpdateNetworkState unmarshal notify₁ st₁ jsonStr).1 = (unmarshal jsonStr).1 ∧
    (UpdateNetworkState unmarshal notify₂ st₂ jsonStr).1 = (unmarshal jsonStr).1 ∧
    (notify₁ (unmarshal jsonStr).1.DefaultInterface = none →
      (UpdateNetworkState unmarshal notify₁ st₁ jsonStr).2 = none) ∧
    getAndroidInterfaces parseCIDR (UpdateNetworkState unmarshal notify₁ st₁ jsonStr).1 =
      getAndroidInterfaces parseCIDR (UpdateNetworkState unmarshal notify₂ st₂ jsonStr).1 ∧
    getAndroidDefaultInterface parseCIDR (UpdateNetworkState unmarshal notify₁ st₁ jsonStr).1 =
      getAndroidDefaultInterface parseCIDR (UpdateNetworkState unmarshal notify₂ st₂ jsonStr).1 ∧
    (UpdateNetworkState unmarshal notify₃
        (UpdateNetworkState unmarshal notify₁ st₁ jsonStr).1 jsonStr).1 =
      (UpdateNetworkState unmarshal notify₁ st₁ jsonStr).1 ∧
    getAndroidInterfaces parseCIDR (UpdateNetworkState unmarshal notify₃
        (UpdateNetworkState unmarshal notify₁ st₁ jsonStr).1 jsonStr).1 =
      getAndroidInterfaces parseCIDR (UpdateNetworkState unmarshal notify₁ st₁ jsonStr).1 ∧
    getAndroidDefaultInterface parseCIDR (UpdateNetworkState unmarshal notify₃
        (UpdateNetworkState unmarshal notify₁ st₁ jsonStr).1 jsonStr).1 =
      getAndroidDefaultInterface parseCIDR (UpdateNetworkState unmarshal notify₁ st₁ jsonStr).1 := by
  have hst : ∀ (notify : Notifier) (st : AndroidState),
      (UpdateNetworkState unmarshal notify st jsonStr).1 = (unmarshal jsonStr).1 := by
    intro notify st
    unfold UpdateNetworkState
    rcases hu : unmarshal jsonStr with ⟨newState, _ | err⟩
    · simp only
      split
      · split <;> rfl
      · rfl
    · simp [hu] at hok
  refine ⟨hst _ _, hst _ _, ?_, by rw [hst, hst], by rw [hst, hst], by rw [hst, hst],
    by rw [hst, hst], by rw [hst, hst]⟩
  intro hq
  unfold UpdateNetworkState
  rcases hu : unmarshal jsonStr with ⟨newState, _ | err⟩
  · rw [hu] at hq
    simp only at hq
    simp only
    split
    · rw [hq]
    · rfl
  · simp [hu] at hok

/-- C8 on `payloadA`, pushed over the state before any update and over
`scenarioB`, then pushed again. -/
theorem UpdateNetworkState_replaces_witness :
    (UpdateNetworkState sampleUnmarshal quietNotify AndroidState.zero payloadA).1 = scenarioA ∧
    (UpdateNetworkState sampleUnmarshal panickingNotify scenarioB payloadA).1 = scenarioA ∧
    (UpdateNetworkState sampleUnmarshal quietNotify AndroidState.zero payloadA).2 = none ∧
    (UpdateNetworkState sampleUnmarshal quietNotify
      (UpdateNetworkState sampleUnmarshal quietNotify AndroidState.zero payloadA).1 payloadA).1 =
        scenarioA := by
  have h := UpdateNetworkState_replaces sampleUnmarshal quietNotify panickingNotify quietNotify
    net.ParseCIDR AndroidState.zero scenarioB payloadA (by decide)
  have hA : (sampleUnmarshal payloadA).1 = scenarioA := by decide
  exact ⟨h.1.trans hA, h.2.1.trans hA, h.2.2.1 (by decide), h.2.2.2.2.2.1.trans (h.1.trans hA)⟩

/-- C9: when the default name is not empty and no record has that name,
`getAndroidDefaultInterface` returns the empty name, the zero address and an
error; the result is not the placeholder, and the error is the one returned
for a snapshot with the same default name in which that name is listed but
has no entry that parses. -/
theorem getAndroidDefaultInterface_missing (parseCIDR : CIDRParser) (st st' : AndroidState)
    (hdef : st.DefaultInterface ≠ "")
    (habsent : ∀ r ∈ st.Interfaces, r.Name ≠ st.DefaultInterface)
    (hsame : st'.DefaultInterface = st.DefaultInterface)
    (_hex : ∃ r ∈ st'.Interfaces, r.Name = st.DefaultInterface)
    (hall : ∀ r ∈ st'.Interfaces, r.Name = st.DefaultInterface →
      ∀ cidr ∈ r.Addrs, parseCIDR cidr = none) :
    getAndroidDefaultInterface parseCIDR st =
      ("", netip.Addr.zero,
        some (Errorf "default interface %q found but has no IP" [st.DefaultInterface])) ∧
    getAndroidDefaultInterface parseCIDR st ≠
      ("dummy0", netip.AddrFrom4 [127, 0, 0, 1], none) ∧
    getAndroidDefaultInterface parseCIDR st = getAndroidDefaultInterface parseCIDR st' := by
  have h := getAndroidDefaultInterface_of_none parseCIDR st hdef
    (defaultInterfaceLoop_none parseCIDR st.DefaultInterface st.Interfaces
      (fun r hr hn => absurd hn (habsent r hr)))
  have h' := getAndroidDefaultInterface_of_none parseCIDR st' (by rw [hsame]; exact hdef)
    (defaultInterfaceLoop_none parseCIDR st'.DefaultInterface st'.Interfaces
      (by rw [hsame]; exact hall))
  rw [h, h', hsame]
  exact ⟨rfl, by simp, rfl⟩

/-- C9 on `missingDefault`, compared with `unusableDefault`. -/
theorem getAndroidDefaultInterface_missing_witness :
    getAndroidDefaultInterface net.ParseCIDR missingDefault =
      ("", netip.Addr.zero,
        some (Errorf "default interface %q found but has no IP" ["wlan0"])) ∧
    getAndroidDefaultInterface net.ParseCIDR missingDefault =
      getAndroidDefaultInterface net.ParseCIDR unusableDefault := by
  have h := getAndroidDefaultInterface_missing net.ParseCIDR missingDefault unusableDefault
    (by decide) (by decide) (by decide)
    ⟨⟨"wlan0", 1500, ["bad-cidr", "10.0.0.5"]⟩, by decide, by decide⟩ (by decide)
  exact ⟨h.1, h.2.2⟩

/-- C10: when the default name is not empty and `getAndroidDefaultInterface`
succeeds with a name and an address, the list of `getAndroidInterfaces` on the
same snapshot has a descriptor of that name one of whose addresses is that
address, an IPv4 address being compared in its 4-byte form (through
`AddrFromSlice` and `Unmap`). -/
theorem queries_agree (parseCIDR : CIDRParser) (st : AndroidState) (name : String)
    (addr : netip.Addr)
    (hdef : st.DefaultInterface ≠ "")
    (h : getAndroidDefaultInterface parseCIDR st = (name, addr, none)) :
    ∃ d ∈ (getAndroidInterfaces parseCIDR st).1,
      d.Interface.Name = name ∧
      ∃ a ∈ d.AltAddrs, (netip.AddrFromSlice a.IP).1.Unmap = addr := by
  cases hl : defaultInterfaceLoop parseCIDR st.DefaultInterface st.Interfaces with
  | none =>
    rw [getAndroidDefaultInterface_of_none parseCIDR st hdef hl] at h
    simp at h
  | some addr' =>
    rw [getAndroidDefaultInterface_of_some parseCIDR st addr' hdef hl] at h
    simp only [Prod.mk.injEq, and_true] at h
    obtain ⟨hname, haddr⟩ := h
    subst haddr
    obtain ⟨r, hmem, hrname, hrec⟩ :=
      defaultInterfaceLoop_some parseCIDR st.DefaultInterface st.Interfaces addr' hl
    obtain ⟨cidr, hcmem, p, hp, hunmap⟩ := recordAddr_some parseCIDR r.Addrs addr' hrec
    have hne : st.Interfaces ≠ [] := List.ne_nil_of_mem hmem
    rw [getAndroidInterfaces_eq parseCIDR st hne]
    obtain ⟨k, hk⟩ := descriptorsFrom_mem parseCIDR st.Interfaces 0 r hmem
    refine ⟨descriptor parseCIDR k r, hk, ?_, ⟨p.1, p.2.Mask⟩, ?_, hunmap⟩
    · simp only [descriptor]
      rw [hrname, hname]
    · simp only [descriptor, parsedAddrs, List.mem_filterMap]
      exact ⟨cidr, hcmem, by simp [hp]⟩

/-- C10 on `mixedFamilies`: the default route `rmnet0`, `10.0.0.5` is found
among the addresses of the descriptor named `rmnet0`. -/
theorem queries_agree_witness :
    ∃ d ∈ (getAndroidInterfaces net.ParseCIDR mixedFamilies).1,
      d.Interface.Name = "rmnet0" ∧
      ∃ a ∈ d.AltAddrs, (netip.AddrFromSlice a.IP).1.Unmap = netip.AddrFrom4 [10, 0, 0, 5] :=
  queries_agree net.ParseCIDR mixedFamilies "rmnet0" (netip.AddrFrom4 [10, 0, 0, 5])
    (by decide) (by decide)

end Transport
